import Mathlib

/-!
Verification of the WordJotter spaced-repetition review scheduler
(learningService.js, databaseService.js, FlashcardScreen.js).

Modelling conventions:
- JS Date timestamps are natural-number milliseconds since the epoch.
  Adding n days via setDate advances the timestamp by n * 86400000.
- The stored next_review_date ISO string is identified with the timestamp
  it denotes; an absent / null / empty value is none.
- learning_level is an Option Int; JS truthiness of the field
  (where both an absent field and the number 0 are falsy) is levelFalsy.
- Database reads either yield the word list or throw; this is the
  Except value StoreRead.  Database writes are modelled by recording the
  attempted UPDATE call (WriteCall) together with the boolean result the
  db layer reports (writeResult), since updateWordLearningStatus catches
  internally and returns a Bool.
-/

namespace WordJotter

/-- Milliseconds in one civil day. -/
def msPerDay : Nat := 86400000

/-- Spaced repetition intervals in days, indexed by learning level
(learningService.js). -/
def INTERVALS : List Nat := [1, 3, 7, 14, 30, 90]

/-- A saved word as the scheduler sees it: id, optional learning level,
optional next review timestamp. -/
structure Word where
  id : Nat
  learning_level : Option Int
  next_review_date : Option Nat
  deriving Repr, DecidableEq

/-- JS truthiness test for the learning_level field: absent, null and 0
are all falsy. -/
def levelFalsy : Option Int → Bool
  | none => true
  | some v => v == 0

/-- A failure of the persistence layer (thrown by getSavedWords or
db.runAsync). -/
inductive StoreError
  | unavailable
  deriving Repr, DecidableEq

/-- Result of the getSavedWords database read. -/
abbrev StoreRead := Except StoreError (List Word)

/-- The due test applied to each word by getWordsForReview:
include the word when learning_level is falsy or next_review_date is
absent, otherwise include it when next_review_date is at or before now
(full-timestamp comparison of the two Date values). -/
def isDue (now : Nat) (word : Word) : Bool :=
  if levelFalsy word.learning_level then true
  else
    match word.next_review_date with
    | none => true
    | some nextReviewDate => decide (nextReviewDate ≤ now)

/-- getWordsForReview: read all saved words and keep the due ones; a
thrown store error is caught and an empty array returned. -/
def getWordsForReview (store : StoreRead) (now : Nat) : List Word :=
  match store with
  | .ok words => words.filter (isDue now)
  | .error _ => []

/-- JS array indexing INTERVALS[i] for a possibly out-of-range signed
index: undefined (none) when i is negative or beyond the table. -/
def intervalsGet (i : Int) : Option Nat :=
  if 0 ≤ i then INTERVALS.get? i.toNat else none

/-- The arguments of one updateWordLearningStatus database UPDATE call. -/
structure WriteCall where
  wordId : Nat
  learning_level : Int
  next_review_date : Nat
  deriving Repr, DecidableEq

/-- The current-level read in updateWordAfterReview:
word.learning_level with falsy values replaced by 0. -/
def currentLevel (word : Word) : Int :=
  match word.learning_level with
  | none => 0
  | some v => if v == 0 then 0 else v

/-- updateWordAfterReview: look the word up by id; on a correct answer
raise the level capped at INTERVALS.length - 1, otherwise reset it to 0;
compute the next review date as now plus the interval for the new level;
then issue the database write.  When the interval lookup is undefined
(out-of-range level) the date arithmetic produces an invalid Date and
toISOString throws, which the catch turns into a false return with no
write.  A store read error, or a missing word, also returns false with
no write.  The pair returned is (reported result, attempted write). -/
def updateWordAfterReview (store : StoreRead) (wordId : Nat) (isCorrect : Bool)
    (now : Nat) (writeResult : Bool) : Bool × Option WriteCall :=
  match store with
  | .error _ => (false, none)
  | .ok words =>
    match words.find? (fun w => w.id == wordId) with
    | none => (false, none)
    | some word =>
      let learningLevel : Int :=
        if isCorrect then min (currentLevel word + 1) ((INTERVALS.length : Int) - 1)
        else 0
      match intervalsGet learningLevel with
      | none => (false, none)
      | some days => (writeResult, some ⟨wordId, learningLevel, now + days * msPerDay⟩)

/-- The database UPDATE of updateWordLearningStatus applied to the stored
rows: set learning_level and next_review_date on the row whose id
matches. -/
def updateWordLearningStatus (words : List Word) (wc : WriteCall) : List Word :=
  words.map fun w =>
    if w.id == wc.wordId then
      { w with learning_level := some wc.learning_level,
               next_review_date := some wc.next_review_date }
    else w

/-- The store contents after an optional write. -/
def applyWrite (words : List Word) : Option WriteCall → List Word
  | none => words
  | some wc => updateWordLearningStatus words wc

/-- Two timestamps fall on the same calendar day. -/
def sameCalendarDay (a b : Nat) : Prop := a / msPerDay = b / msPerDay

/-- Swap the entries at positions i and j of a list; out-of-range
indices leave the list unchanged (they never occur in the shuffle). -/
def listSwap (l : List α) (i j : Nat) : List α :=
  match l.get? i, l.get? j with
  | some x, some y => (l.set i y).set j x
  | _, _ => l

/-- The Fisher-Yates loop of loadCards (FlashcardScreen): at loop index
i pick a random j in [0, i] and swap positions i and j, counting i down
to 1.  The platform random source is injected as rand; the value used at
index i is rand i reduced into range. -/
def fisherYatesLoop (rand : Nat → Nat) : List α → Nat → List α
  | l, 0 => l
  | l, i + 1 => fisherYatesLoop rand (listSwap l (i + 1) (rand (i + 1) % (i + 2))) i

/-- The full shuffle of loadCards applied to a list. -/
def fisherYates (rand : Nat → Nat) (l : List α) : List α :=
  fisherYatesLoop rand l (l.length - 1)

/-- loadCards (FlashcardScreen): fetch the due words and shuffle them
for presentation. -/
def loadCards (store : StoreRead) (now : Nat) (rand : Nat → Nat) : List Word :=
  fisherYates rand (getWordsForReview store now)

/-! General lemmas about the embedded operations. -/

/-- Unfolding updateWordAfterReview when the word lookup succeeds. -/
theorem updateWordAfterReview_find (words : List Word) (word : Word) (wordId : Nat)
    (isCorrect : Bool) (now : Nat) (writeResult : Bool)
    (hfind : words.find? (fun w => w.id == wordId) = some word) :
    updateWordAfterReview (Except.ok words) wordId isCorrect now writeResult =
      (let learningLevel : Int :=
        if isCorrect then min (currentLevel word + 1) ((INTERVALS.length : Int) - 1)
        else 0;
      match intervalsGet learningLevel with
      | none => (false, none)
      | some days => (writeResult, some ⟨wordId, learningLevel, now + days * msPerDay⟩)) := by
  simp [updateWordAfterReview, hfind]

/-- Characterization of the due test. -/
theorem isDue_iff (now : Nat) (w : Word) :
    isDue now w = true ↔
      (levelFalsy w.learning_level = true ∨ w.next_review_date = none ∨
        ∃ d, w.next_review_date = some d ∧ d ≤ now) := by
  unfold isDue
  cases hl : levelFalsy w.learning_level with
  | true => simp [hl]
  | false =>
      cases hd : w.next_review_date with
      | none => simp [hd]
      | some d => simp [hd]

/-- A successful interval lookup means the level indexes the table. -/
theorem intervalsGet_bounds (i : Int) (d : Nat) (h : intervalsGet i = some d) :
    0 ≤ i ∧ i ≤ 5 := by
  unfold intervalsGet at h
  split at h
  · next hpos =>
      have hlt := (List.get?_eq_some.mp h).1
      simp [INTERVALS] at hlt
      omega
  · exact absurd h (by simp)

/-- Moving the entry at position m of a list to the front, with its old
place overwritten by x, permutes consing x in front. -/
theorem cons_set_perm (x : α) :
    ∀ (xs : List α) (m : Nat) (hm : m < xs.length),
      List.Perm (xs.get ⟨m, hm⟩ :: xs.set m x) (x :: xs)
  | y :: ys, 0, _ => List.Perm.swap x y ys
  | y :: ys, m + 1, hm => by
      have hm2 : m < ys.length := by simpa using hm
      have ih := cons_set_perm x ys m hm2
      show List.Perm (ys.get ⟨m, hm2⟩ :: y :: ys.set m x) (x :: y :: ys)
      exact (List.Perm.swap y (ys.get ⟨m, hm2⟩) (ys.set m x)).trans
        ((ih.cons y).trans (List.Perm.swap x y ys))

/-- Exchanging two in-range entries through a double set permutes the
list. -/
theorem set_set_swap_perm :
    ∀ (l : List α) (i j : Nat) (hi : i < l.length) (hj : j < l.length),
      List.Perm ((l.set i (l.get ⟨j, hj⟩)).set j (l.get ⟨i, hi⟩)) l
  | x :: xs, 0, 0, _, _ => by simp
  | x :: xs, 0, j + 1, _, hj => cons_set_perm x xs j (by simpa using hj)
  | x :: xs, i + 1, 0, hi, _ => cons_set_perm x xs i (by simpa using hi)
  | x :: xs, i + 1, j + 1, hi, hj =>
      (set_set_swap_perm xs i j (by simpa using hi) (by simpa using hj)).cons x

/-- One swap step of the shuffle permutes the list. -/
theorem listSwap_perm (l : List α) (i j : Nat) : List.Perm (listSwap l i j) l := by
  unfold listSwap
  split
  · next x y hx hy =>
      obtain ⟨hi, hxe⟩ := List.get?_eq_some.mp hx
      obtain ⟨hj, hye⟩ := List.get?_eq_some.mp hy
      subst hxe
      subst hye
      exact set_set_swap_perm l i j hi hj
  · exact List.Perm.refl l

/-- The Fisher-Yates loop permutes the list for every random source. -/
theorem fisherYatesLoop_perm (rand : Nat → Nat) :
    ∀ (n : Nat) (l : List α), List.Perm (fisherYatesLoop rand l n) l
  | 0, l => List.Perm.refl l
  | n + 1, l =>
      (fisherYatesLoop_perm rand n _).trans
        (listSwap_perm l (n + 1) (rand (n + 1) % (n + 2)))

/-- The full shuffle permutes the list for every random source. -/
theorem fisherYates_perm (rand : Nat → Nat) (l : List α) :
    List.Perm (fisherYates rand l) l :=
  fisherYatesLoop_perm rand (l.length - 1) l

/-! The claims. -/

/-- Claim C1: for a stored item whose effective mastery level (absent
counts as 0) is an integer in [0, 5], recording a correct review
advances the level to min(level + 1, 5), saturating at the top level,
and schedules the next review at the review moment plus
INTERVALS[new level] days. -/
theorem C1_correct_advances_saturating (words : List Word) (word : Word)
    (wordId : Nat) (now : Nat) (writeResult : Bool)
    (hfind : words.find? (fun w => w.id == wordId) = some word)
    (hlo : 0 ≤ currentLevel word) (hhi : currentLevel word ≤ 5) :
    ∃ days, intervalsGet (min (currentLevel word + 1) 5) = some days ∧
      updateWordAfterReview (Except.ok words) wordId true now writeResult =
        (writeResult,
          some ⟨wordId, min (currentLevel word + 1) 5, now + days * msPerDay⟩) := by
  rw [updateWordAfterReview_find words word wordId true now writeResult hfind]
  generalize currentLevel word = c at hlo hhi ⊢
  interval_cases c <;> exact ⟨_, rfl, rfl⟩

/-- Claim C1 witness: a word at level 2 reviewed correctly moves to
level 3 with the next review 14 days after the review moment. -/
theorem C1_witness :
    ∃ days, intervalsGet (min (currentLevel ⟨1, some 2, none⟩ + 1) 5) = some days ∧
      updateWordAfterReview (Except.ok [⟨1, some 2, none⟩]) 1 true 0 true =
        (true,
          some ⟨1, min (currentLevel ⟨1, some 2, none⟩ + 1) 5, 0 + days * msPerDay⟩) :=
  C1_correct_advances_saturating [⟨1, some 2, none⟩] ⟨1, some 2, none⟩ 1 0 true
    rfl (by decide) (by decide)

/-- Claim C2: recording an incorrect review resets the stored level to 0
and schedules the next review INTERVALS[0] = 1 day after the review
moment, regardless of the prior level. -/
theorem C2_incorrect_resets (words : List Word) (word : Word) (wordId : Nat)
    (now : Nat) (writeResult : Bool)
    (hfind : words.find? (fun w => w.id == wordId) = some word) :
    updateWordAfterReview (Except.ok words) wordId false now writeResult =
      (writeResult, some ⟨wordId, 0, now + 1 * msPerDay⟩) := by
  rw [updateWordAfterReview_find words word wordId false now writeResult hfind]
  rfl

/-- Claim C2 witness: a word at level 4 reviewed incorrectly is reset to
level 0 with the next review one day later. -/
theorem C2_witness :
    updateWordAfterReview (Except.ok [⟨1, some 4, some 123⟩]) 1 false 7 true =
      (true, some ⟨1, 0, 7 + 1 * msPerDay⟩) :=
  C2_incorrect_resets [⟨1, some 4, some 123⟩] ⟨1, some 4, some 123⟩ 1 7 true rfl

/-- Claim C3 counterexample: with now = 0, the word with learning level 0
and next review timestamp 86400000 (strictly in the future) is returned
by getWordsForReview, because a level of 0 is falsy; so the claim that
every item whose next review is strictly in the future is excluded fails. -/
theorem C3_counterexample :
    0 < 86400000 ∧
      getWordsForReview (Except.ok [⟨1, some 0, some 86400000⟩]) 0 =
        [⟨1, some 0, some 86400000⟩] :=
  ⟨by decide, by decide⟩

/-- Claim C3 amended: a word is returned by getWordsForReview exactly
when it is stored and either its learning level is falsy (absent, null
or 0), or it has no next review date, or its next review timestamp is at
or before now; in particular items with a truthy level and a strictly
future date are excluded, and all past-or-current items are included. -/
theorem C3_amended_membership (words : List Word) (now : Nat) (w : Word) :
    w ∈ getWordsForReview (Except.ok words) now ↔
      w ∈ words ∧ (levelFalsy w.learning_level = true ∨ w.next_review_date = none ∨
        ∃ d, w.next_review_date = some d ∧ d ≤ now) := by
  simp [getWordsForReview, List.mem_filter, isDue_iff]

/-- Claim C4 counterexample: with now = 0 and a word at level 3 whose
next review timestamp 1000 falls on the same calendar day as now but
later in the day, getWordsForReview excludes the word, so due-ness is
not decided at day granularity. -/
theorem C4_counterexample :
    sameCalendarDay 1000 0 ∧
      getWordsForReview (Except.ok [⟨1, some 3, some 1000⟩]) 0 = [] :=
  ⟨by unfold sameCalendarDay; decide, by decide⟩

/-- Claim C4 amended: for a word with a truthy learning level and a
next review date present, the due comparison is at full timestamp
granularity: the word is returned exactly when it is stored and its next
review timestamp is less than or equal to now, so a same-day but
later-time next review date leads to exclusion. -/
theorem C4_amended_timestamp_comparison (words : List Word) (now d : Nat) (w : Word)
    (hlvl : levelFalsy w.learning_level = false) (hd : w.next_review_date = some d) :
    w ∈ getWordsForReview (Except.ok words) now ↔ w ∈ words ∧ d ≤ now := by
  simp [getWordsForReview, List.mem_filter, isDue, hlvl, hd]

/-- Claim C4 witness: a word at level 2 whose next review timestamp
equals now is included. -/
theorem C4_witness :
    ((⟨1, some 2, some 5⟩ : Word) ∈
        getWordsForReview (Except.ok [⟨1, some 2, some 5⟩]) 5 ↔
      (⟨1, some 2, some 5⟩ : Word) ∈ [(⟨1, some 2, some 5⟩ : Word)] ∧ 5 ≤ 5) :=
  C4_amended_timestamp_comparison [⟨1, some 2, some 5⟩] 5 5 ⟨1, some 2, some 5⟩
    (by decide) rfl

/-- Claim C5: when no stored word has the given id, updateWordAfterReview
reports failure (false) and attempts no write, and the store contents
are unchanged. -/
theorem C5_not_found_no_write (words : List Word) (wordId : Nat) (isCorrect : Bool)
    (now : Nat) (writeResult : Bool)
    (hfind : words.find? (fun w => w.id == wordId) = none) :
    updateWordAfterReview (Except.ok words) wordId isCorrect now writeResult =
        (false, none) ∧
      applyWrite words
        (updateWordAfterReview (Except.ok words) wordId isCorrect now writeResult).2 =
        words := by
  have h : updateWordAfterReview (Except.ok words) wordId isCorrect now writeResult =
      (false, none) := by
    simp [updateWordAfterReview, hfind]
  exact ⟨h, by rw [h]; rfl⟩

/-- Claim C5 witness: updating the absent id 2 fails and leaves the
single stored word untouched. -/
theorem C5_witness :
    updateWordAfterReview (Except.ok [⟨1, some 2, none⟩]) 2 true 0 true =
        (false, none) ∧
      applyWrite [⟨1, some 2, none⟩]
        (updateWordAfterReview (Except.ok [⟨1, some 2, none⟩]) 2 true 0 true).2 =
        [⟨1, some 2, none⟩] :=
  C5_not_found_no_write [⟨1, some 2, none⟩] 2 true 0 true rfl

/-- Claim C6 counterexample: when the store read fails,
getWordsForReview returns the ordinary value [], identical to its
result on a genuinely empty store, and updateWordAfterReview returns
the ordinary value (false, none); a failed database write is likewise
reported as the plain boolean false. The error is masked, not
propagated unchanged to the caller. -/
theorem C6_counterexample :
    getWordsForReview (Except.error StoreError.unavailable) 0 = [] ∧
      getWordsForReview (Except.ok []) 0 = [] ∧
      updateWordAfterReview (Except.error StoreError.unavailable) 1 true 0 true =
        (false, none) ∧
      updateWordAfterReview (Except.ok [⟨1, some 1, none⟩]) 1 true 0 false =
        (false, some ⟨1, 2, 0 + 7 * msPerDay⟩) :=
  ⟨rfl, rfl, rfl, by decide⟩

/-- Claim C6 amended: every store failure during selectDueItems or
recordOutcome is caught inside the service and masked behind an
ordinary return value: getWordsForReview yields an empty array and
updateWordAfterReview yields false with no write; neither propagates
the error to the caller. -/
theorem C6_amended_errors_masked (now : Nat) (e : StoreError) (wordId : Nat)
    (isCorrect : Bool) (writeResult : Bool) :
    getWordsForReview (Except.error e) now = [] ∧
      updateWordAfterReview (Except.error e) wordId isCorrect now writeResult =
        (false, none) :=
  ⟨rfl, rfl⟩

/-- Claim C7 counterexample: for a stored word with prior level -2 and a
correct answer, updateWordAfterReview fails (returns false and writes
nothing) instead of clamping the level into [0, 5] and completing
normally: the new level -1 indexes outside INTERVALS, the computed date
is invalid, and toISOString throws into the catch. -/
theorem C7_counterexample :
    updateWordAfterReview (Except.ok [⟨1, some (-2), none⟩]) 1 true 0 true =
      (false, none) := by
  decide

/-- Claim C7 amended: only levels above the top are clamped, by the min
against INTERVALS.length - 1 on the correct path (an incorrect answer
resets any level to 0); a negative prior level is not clamped: on the
correct path a level of -2 or below makes the interval lookup undefined
and the operation fails with no write. -/
theorem C7_amended_negative_not_clamped (words : List Word) (word : Word)
    (wordId : Nat) (now : Nat) (writeResult : Bool) (v : Int)
    (hfind : words.find? (fun w => w.id == wordId) = some word)
    (hv : word.learning_level = some v) :
    (5 < v →
      updateWordAfterReview (Except.ok words) wordId true now writeResult =
        (writeResult, some ⟨wordId, 5, now + 90 * msPerDay⟩)) ∧
    (v ≤ -2 →
      updateWordAfterReview (Except.ok words) wordId true now writeResult =
        (false, none)) := by
  rw [updateWordAfterReview_find words word wordId true now writeResult hfind]
  constructor
  · intro h
    have hne : ¬(v == 0) = true := by simp; omega
    have hcl : currentLevel word = v := by simp [currentLevel, hv, hne]
    rw [hcl]
    have hmin : min (v + 1) ((INTERVALS.length : Int) - 1) = 5 := by
      simp [INTERVALS]; omega
    simp only [if_true]
    rw [hmin]
    rfl
  · intro h
    have hne : ¬(v == 0) = true := by simp; omega
    have hcl : currentLevel word = v := by simp [currentLevel, hv, hne]
    rw [hcl]
    have hmin : min (v + 1) ((INTERVALS.length : Int) - 1) = v + 1 := by
      simp [INTERVALS]; omega
    simp only [if_true]
    rw [hmin]
    have hnone : intervalsGet (v + 1) = none := by
      unfold intervalsGet
      have : ¬(0 : Int) ≤ v + 1 := by omega
      simp [this]
    rw [hnone]

/-- Claim C7 witness: a prior level of 7 is clamped down to 5 and the
write succeeds, while a prior level of -3 makes the operation fail with
no write. -/
theorem C7_witness :
    updateWordAfterReview (Except.ok [⟨1, some 7, none⟩]) 1 true 0 true =
        (true, some ⟨1, 5, 0 + 90 * msPerDay⟩) ∧
      updateWordAfterReview (Except.ok [⟨2, some (-3), none⟩]) 2 true 5 true =
        (false, none) :=
  ⟨(C7_amended_negative_not_clamped [⟨1, some 7, none⟩] ⟨1, some 7, none⟩ 1 0 true 7
      rfl rfl).1 (by decide),
    (C7_amended_negative_not_clamped [⟨2, some (-3), none⟩] ⟨2, some (-3), none⟩ 2 5
      true (-3) rfl rfl).2 (by decide)⟩

/-- Claim C8 counterexample: getWordsForReview takes no random source;
on a store holding two due words it returns them in store order, and
the reversed permutation is a different list that is never returned, so
the due set is not returned in randomized order with every permutation
equally likely. -/
theorem C8_counterexample :
    getWordsForReview (Except.ok [⟨1, none, none⟩, ⟨2, none, none⟩]) 0 =
        [⟨1, none, none⟩, ⟨2, none, none⟩] ∧
      ([⟨1, none, none⟩, ⟨2, none, none⟩] : List Word) ≠
        [⟨2, none, none⟩, ⟨1, none, none⟩] :=
  ⟨rfl, by decide⟩

/-- Claim C8 amended: getWordsForReview itself is deterministic,
returning exactly the filter of the stored words in store order, so the
underlying due set is the same on every call; the randomized order is
produced by the caller loadCards in FlashcardScreen, whose Fisher-Yates
pass returns a permutation of that due list for every random source. -/
theorem C8_amended_shuffle_in_caller (store : StoreRead) (now : Nat)
    (rand : Nat → Nat) (words : List Word) :
    List.Perm (loadCards store now rand) (getWordsForReview store now) ∧
      getWordsForReview (Except.ok words) now = words.filter (isDue now) :=
  ⟨fisherYates_perm rand (getWordsForReview store now), rfl⟩

/-- Claim C9: every stored word whose learning level is absent, null or
0 is returned by getWordsForReview whatever now is, even when its next
review date lies strictly in the future; in particular a word just
answered incorrectly (reset to level 0, next review one day ahead) is
due again immediately. -/
theorem C9_falsy_level_always_due (words : List Word) (now : Nat) (w : Word)
    (hw : w ∈ words) (hl : levelFalsy w.learning_level = true) :
    w ∈ getWordsForReview (Except.ok words) now := by
  simp [getWordsForReview, List.mem_filter, isDue, hl, hw]

/-- Claim C9 witness: a word at level 0 whose next review is one day in
the future is still in the due set now. -/
theorem C9_witness :
    (⟨1, some 0, some 86400000⟩ : Word) ∈
      getWordsForReview (Except.ok [⟨1, some 0, some 86400000⟩]) 0 :=
  C9_falsy_level_always_due [⟨1, some 0, some 86400000⟩] 0 ⟨1, some 0, some 86400000⟩
    (by decide) rfl

/-- Claim C10: whenever updateWordAfterReview attempts the database
write (and so can return true), the persisted level is an integer in
[0, 5] indexing INTERVALS, and the persisted next review date is the
review moment plus INTERVALS[level] days; and when no write is
attempted the operation reports false, so an out-of-range interval
index fails the call before any write. -/
theorem C10_persisted_level_valid (store : StoreRead) (wordId : Nat)
    (isCorrect : Bool) (now : Nat) (writeResult : Bool) :
    (∀ wc : WriteCall,
        (updateWordAfterReview store wordId isCorrect now writeResult).2 = some wc →
          0 ≤ wc.learning_level ∧ wc.learning_level ≤ 5 ∧
            ∃ days, intervalsGet wc.learning_level = some days ∧
              wc.next_review_date = now + days * msPerDay) ∧
    ((updateWordAfterReview store wordId isCorrect now writeResult).2 = none →
        (updateWordAfterReview store wordId isCorrect now writeResult).1 = false) := by
  cases store with
  | error e => simp [updateWordAfterReview]
  | ok words =>
    cases hf : words.find? (fun w => w.id == wordId) with
    | none => simp [updateWordAfterReview, hf]
    | some word =>
      rw [updateWordAfterReview_find words word wordId isCorrect now writeResult hf]
      cases hi : intervalsGet
          (if isCorrect then min (currentLevel word + 1) ((INTERVALS.length : Int) - 1)
           else 0) with
      | none => simp [hi]
      | some days =>
          simp only [hi]
          constructor
          · intro wc hwc
            simp at hwc
            subst hwc
            have hb := intervalsGet_bounds _ _ hi
            exact ⟨hb.1, hb.2, days, hi, rfl⟩
          · intro hnone
            simp at hnone

end WordJotter
